import Mathlib

/-!
# Verification of the `kf` grep core

A shallow embedding, in Lean 4, of the grep subsystem of the `kf` command-line
tool (`src/grep/matcher.rs`, `src/grep/finder.rs`, `src/grep/reporter.rs`,
`src/grep/mod.rs`), together with theorems settling the specification claims
about it.

Modelling conventions:
* The compiled regex is an external collaborator; it is embedded as an opaque
  capability record `RegexCap` holding `is_match` and the `replace_all`-based
  highlighter, exactly the two operations the core uses.
* A `BufRead` line iterator (`reader.lines()`) is embedded as a
  `List (Except String String)`: each element is one `io::Result<String>`
  produced by the iterator, line terminators already stripped.
* The file system seen by `FilesFinder` is embedded as the tree `FsTree`,
  whose constructors record exactly the observations the Rust code can make
  through `fs::metadata`, `Metadata::is_file` / `is_dir`, `fs::read_dir` and
  per-entry iteration results.
* `io::Error` values are carried as their display `String`s.
* Writers are embedded by letting every reporter method return the `String`
  it appends to the sink; `stderr` diagnostics are collected separately.
* Rust `str::trim` / `str::trim_end` are embedded as `rustTrim` /
  `rustTrimEnd` over the character list of the string.
-/

namespace Kf

/-- The opaque pattern capability: the two operations of `regex::Regex` the
grep core calls (`is_match`, and `replace_all` with the red-colored `$0`
replacement used by `highlight_pattern`). -/
structure RegexCap where
  is_match : String → Bool
  replaceAllRed : String → String

/-- `LineMatch` from `matcher.rs`: a matching line and its 1-based number. -/
structure LineMatch where
  line : String
  line_number : Nat
deriving Repr, DecidableEq

/-- `FileMatches` from `matcher.rs` (the borrowed path is carried as a
display string). -/
structure FileMatches where
  file_path : String
  «matches» : List LineMatch
deriving Repr, DecidableEq

/-- `FileMatches::is_empty`. -/
def FileMatches.is_empty (fm : FileMatches) : Bool :=
  fm.«matches».isEmpty

/-- `FileMatches::len`. -/
def FileMatches.len (fm : FileMatches) : Nat :=
  fm.«matches».length

/-- `MatchesFinder` from `matcher.rs`: the pattern capability and the
invert flag. -/
structure MatchesFinder where
  pattern : RegexCap
  invert_match : Bool

/-- `MatchesFinder::is_match`: `self.pattern.is_match(line) ^ self.invert_match`. -/
def MatchesFinder.is_match (m : MatchesFinder) (line : String) : Bool :=
  Bool.xor (m.pattern.is_match line) m.invert_match

/-- The loop body of `MatchesFinder::find_matches_from_reader`:
`reader.lines().enumerate().filter_map(...).collect::<io::Result<Vec<_>>>()`.
`k` is the enumeration index of the head of the remaining line list.
`collect` over an iterator of `Result`s stops at the first `Err` and returns
it, discarding everything collected so far. -/
def collectMatches (m : MatchesFinder) : Nat → List (Except String String) →
    Except String (List LineMatch)
  | _, [] => .ok []
  | _, .error e :: _ => .error e
  | k, .ok line :: rest =>
    if m.is_match line then
      match collectMatches m (k + 1) rest with
      | .error e => .error e
      | .ok ms => .ok ({ line := line, line_number := k + 1 } :: ms)
    else
      collectMatches m (k + 1) rest

/-- `MatchesFinder::find_matches_from_reader` (enumeration starts at 0). -/
def MatchesFinder.find_matches_from_reader (m : MatchesFinder)
    (reader : List (Except String String)) : Except String (List LineMatch) :=
  collectMatches m 0 reader

/-- A file handed to `find_matches_from_file`: its display path together with
the outcome of `File::open` — an open error, or the line-read results. -/
structure SrcFile where
  path : String
  openResult : Except String (List (Except String String))

/-- `MatchesFinder::find_matches_from_file`: propagate the open error, else
scan the reader and pair the matches with the path. -/
def MatchesFinder.find_matches_from_file (m : MatchesFinder) (f : SrcFile) :
    Except String FileMatches :=
  match f.openResult with
  | .error e => .error e
  | .ok reader =>
    match m.find_matches_from_reader reader with
    | .error e => .error e
    | .ok ms => .ok { file_path := f.path, «matches» := ms }

/-- `MatchesFinder::find_matches_from_stdin`: scan the reader under the fixed
label `"stdin"`. -/
def MatchesFinder.find_matches_from_stdin (m : MatchesFinder)
    (reader : List (Except String String)) : Except String FileMatches :=
  match m.find_matches_from_reader reader with
  | .error e => .error e
  | .ok ms => .ok { file_path := "stdin", «matches» := ms }

/-! ## Source resolver (`finder.rs`) -/

/-- The file-system shape seen by `FilesFinder`, recorded through the
observations the Rust code makes. Every node carries its display path.
* `file p`: `fs::metadata` succeeds and `is_file()` holds.
* `other p`: `fs::metadata` succeeds but the path is neither a regular file
  nor a directory (fifo, socket, device, ...).
* `broken p e`: `fs::metadata` (and hence also `Path::is_file` /
  `Path::is_dir`) fails with error `e`.
* `dir p children`: a readable directory; `children` are its `read_dir`
  entries in directory-read order.
* `entryErr e`: a position in a directory's entry stream where the
  `read_dir` iterator yields `Err(e)` (meaningful only as a child).
* `dirErr p e`: a directory (so `is_dir()` holds) whose `read_dir` call
  fails with error `e`. -/
inductive FsTree where
  | file (path : String)
  | other (path : String)
  | broken (path : String) (e : String)
  | dir (path : String) (children : List FsTree)
  | entryErr (e : String)
  | dirErr (path : String) (e : String)
deriving Repr

/-- `FilesFinder::find_files_in_dir`, expressed over a directory's entry
list: push regular files, recurse into subdirectories when `recursive`,
skip everything else; `fs::read_dir(..)?` and the per-entry `entry?` make
any iterator error abort the whole call. -/
def findFilesInDir (recursive : Bool) : List FsTree → Except String (List String)
  | [] => .ok []
  | .entryErr e :: _ => .error e
  | .file p :: rest =>
    match findFilesInDir recursive rest with
    | .error e => .error e
    | .ok fs => .ok (p :: fs)
  | .dir _ children :: rest =>
    if recursive then
      match findFilesInDir recursive children with
      | .error e => .error e
      | .ok nested =>
        match findFilesInDir recursive rest with
        | .error e => .error e
        | .ok fs => .ok (nested ++ fs)
    else
      findFilesInDir recursive rest
  | .dirErr _ e :: rest =>
    if recursive then .error e
    else findFilesInDir recursive rest
  | .other _ :: rest => findFilesInDir recursive rest
  | .broken _ _ :: rest => findFilesInDir recursive rest

/-- `FilesFinder::find_files_at_path`: branch on `fs::metadata`.
A successful metadata lookup that reports neither a regular file nor a
directory falls through both `if` branches and pushes nothing.
(`entryErr` is a directory-internal marker; it does not occur as an input
path, and is mapped to the empty result.) -/
def findFilesAtPath (recursive : Bool) : FsTree → List (Except String String)
  | .file p => [.ok p]
  | .other _ => []
  | .broken _ e => [.error e]
  | .dir p children =>
    if recursive then
      match findFilesInDir recursive children with
      | .error e => [.error e]
      | .ok subFiles => subFiles.map .ok
    else
      [.error (p ++ " is a directory, use -r to search recursively")]
  | .entryErr _ => []
  | .dirErr p e =>
    if recursive then [.error e]
    else [.error (p ++ " is a directory, use -r to search recursively")]

/-- `FilesFinder::find_files`:
`self.files.iter().flat_map(|path| self.find_files_at_path(path)).collect()`. -/
def findFiles (recursive : Bool) (files : List FsTree) : List (Except String String) :=
  files.flatMap (findFilesAtPath recursive)

mutual

/-- A tree is clean when no `read_dir` call or directory-entry read inside
it fails (no `dirErr`, no `entryErr`). -/
def cleanTree : FsTree → Bool
  | .file _ => true
  | .other _ => true
  | .broken _ _ => true
  | .dir _ children => cleanTrees children
  | .entryErr _ => false
  | .dirErr _ _ => false

/-- All trees in the list are clean. -/
def cleanTrees : List FsTree → Bool
  | [] => true
  | t :: ts => cleanTree t && cleanTrees ts

end

mutual

/-- The regular files beneath a tree, in depth-first directory-read order. -/
def dfsFiles : FsTree → List String
  | .file p => [p]
  | .dir _ children => dfsFilesList children
  | _ => []

/-- Depth-first file list of a forest, in order. -/
def dfsFilesList : List FsTree → List String
  | [] => []
  | t :: ts => dfsFiles t ++ dfsFilesList ts

end

/-! ## Reporter (`reporter.rs`) -/

/-- Rust `str::trim_end`: drop trailing whitespace characters. -/
def rustTrimEnd (s : String) : String :=
  ⟨(s.data.reverse.dropWhile Char.isWhitespace).reverse⟩

/-- Rust `str::trim_start`: drop leading whitespace characters. -/
def rustTrimStart (s : String) : String :=
  ⟨s.data.dropWhile Char.isWhitespace⟩

/-- Rust `str::trim`: drop whitespace at both ends. -/
def rustTrim (s : String) : String :=
  rustTrimStart (rustTrimEnd s)

/-- `FileMatchesReporter` from `reporter.rs`. The writer is embedded by
letting each method return the string it writes. `green` and `magentaBold`
stand for the `colored` crate's `.green()` and `.magenta().bold()`
formatting collaborators. -/
structure FileMatchesReporter where
  pattern : RegexCap
  count : Bool
  color : Bool
  green : String → String
  magentaBold : String → String

namespace FileMatchesReporter

/-- `output_newline`: `writeln!(self.writer)`. -/
def output_newline (_ : FileMatchesReporter) : String := "\n"

/-- `highlight_pattern`: replace every match with its red-colored text when
color is on and the raw pattern (no inversion) matches the line. -/
def highlight_pattern (r : FileMatchesReporter) (line : String) : String :=
  if r.color && r.pattern.is_match line then r.pattern.replaceAllRed line
  else line

/-- `output_line_text`: the (fully trimmed, optionally highlighted) line
text followed by a newline. -/
def output_line_text (r : FileMatchesReporter) (line : String) : String :=
  (if r.color then r.highlight_pattern (rustTrim line) else rustTrim line) ++
    r.output_newline

/-- `output_line_number`: the line number (optionally green) and a colon. -/
def output_line_number (r : FileMatchesReporter) (line_number : Nat) : String :=
  if r.color then r.green (toString line_number) ++ ":"
  else toString line_number ++ ":"

/-- `output_file_path`: the display path, optionally magenta bold. -/
def output_file_path (r : FileMatchesReporter) (path : String) : String :=
  if r.color then r.magentaBold path else path

/-- `output_matched_lines`: one `<number>:<text>` line per match, in order. -/
def output_matched_lines (r : FileMatchesReporter) (result : FileMatches) : String :=
  String.join (result.«matches».map fun lm =>
    r.output_line_number lm.line_number ++ r.output_line_text lm.line)

/-- `output_matches_count`: `result.len()` and a newline. -/
def output_matches_count (r : FileMatchesReporter) (result : FileMatches) : String :=
  toString result.len ++ r.output_newline

/-- `output_file_match_count`: `<path>:<count>`. -/
def output_file_match_count (r : FileMatchesReporter) (result : FileMatches) : String :=
  r.output_file_path result.file_path ++ ":" ++ r.output_matches_count result

/-- `output_file_matched_lines`: the path on its own line, then the matches. -/
def output_file_matched_lines (r : FileMatchesReporter) (result : FileMatches) : String :=
  r.output_file_path result.file_path ++ r.output_newline ++
    r.output_matched_lines result

/-- `output_file_matches`: count mode or matched-lines mode. -/
def output_file_matches (r : FileMatchesReporter) (result : FileMatches) : String :=
  if r.count then r.output_file_match_count result
  else r.output_file_matched_lines result

/-- `output_stdin_matches`: like `output_file_matches` but with no label. -/
def output_stdin_matches (r : FileMatchesReporter) (result : FileMatches) : String :=
  if r.count then r.output_matches_count result
  else r.output_matched_lines result

/-- `output_file_separator`: one blank line between file blocks, nothing in
count mode. -/
def output_file_separator (r : FileMatchesReporter) : String :=
  if !r.count then r.output_newline else ""

end FileMatchesReporter

/-! ## Orchestrator (`mod.rs`) -/

/-- The state threaded through the `grep_files` loop: everything written to
stdout so far, the stderr diagnostics in order, and the `has_matches` flag. -/
structure BatchState where
  out : String
  errs : List String
  has_matches : Bool
deriving Repr, DecidableEq

/-- One iteration of the `grep_files` loop over a resolved entry
(`file_result`): resolver errors and scan errors go to stderr and the state
is otherwise unchanged; an empty scan is skipped; a non-empty scan emits the
separator when a block was already emitted, then its block. -/
def grepFilesStep (m : MatchesFinder) (r : FileMatchesReporter)
    (st : BatchState) (file_result : Except String SrcFile) : BatchState :=
  match file_result with
  | .error e => { st with errs := st.errs ++ ["Error accessing file: " ++ e] }
  | .ok f =>
    match m.find_matches_from_file f with
    | .ok result =>
      if !result.is_empty then
        { out := st.out ++
            (if st.has_matches then r.output_file_separator else "") ++
            r.output_file_matches result,
          errs := st.errs,
          has_matches := true }
      else st
    | .error e =>
      { st with
        errs := st.errs ++ ["Error reading file " ++ f.path ++ ": " ++ e] }

/-- `grep_files` from `mod.rs`, over the already-resolved entry list (the
result of `find_files()` with each successful path paired with what opening
and reading it yields). Returns the final state; the function's `bool`
result is the `has_matches` field. -/
def grepFiles (m : MatchesFinder) (r : FileMatchesReporter)
    (entries : List (Except String SrcFile)) : BatchState :=
  entries.foldl (grepFilesStep m r) ⟨"", [], false⟩

/-- `grep_interactive_stdin`: read lines until end of input; each raw
buffer (line terminator included) is trimmed at the end and echoed through
`output_line_text`. Returns the full stdout text. -/
def grepInteractiveStdin (r : FileMatchesReporter) (input : List String) : String :=
  String.join (input.map fun buffer => r.output_line_text (rustTrimEnd buffer))

/-- `grep_piped_stdin`: scan stdin once; render the block only when
non-empty; the returned flag is `!result.is_empty()`. -/
def grepPipedStdin (m : MatchesFinder) (r : FileMatchesReporter)
    (reader : List (Except String String)) : Except String (String × Bool) :=
  match m.find_matches_from_stdin reader with
  | .error e => .error e
  | .ok result =>
    .ok ((if !result.is_empty then r.output_stdin_matches result else ""),
      !result.is_empty)

/-- The input of one `grep` invocation: either no file arguments (stdin,
with the terminal test, the raw `read_line` buffers for the interactive
loop and the `lines()` results for the piped scan), or a non-empty file
list already resolved to entries. -/
inductive GrepInput where
  | stdin (isTerminal : Bool) (raw : List String)
      (piped : List (Except String String))
  | batch (entries : List (Except String SrcFile))

/-- `grep_stdin`: interactive pass-through when the stream is a terminal
(always reporting `true`), else one piped scan. -/
def grepStdin (m : MatchesFinder) (r : FileMatchesReporter) (isTerminal : Bool)
    (raw : List String) (piped : List (Except String String)) :
    Except String (String × Bool) :=
  if isTerminal then .ok (grepInteractiveStdin r raw, true)
  else grepPipedStdin m r piped

/-- `grep`: run the stdin or files branch, then map `has_matches = false`
to the `NoMatches` error. Returns the stdout text on success. -/
def grep (m : MatchesFinder) (r : FileMatchesReporter) (input : GrepInput) :
    Except String String :=
  let run : Except String (String × Bool) :=
    match input with
    | .stdin isTerminal raw piped => grepStdin m r isTerminal raw piped
    | .batch entries =>
      let st := grepFiles m r entries
      .ok (st.out, st.has_matches)
  match run with
  | .error e => .error e
  | .ok (out, has_matches) =>
    if has_matches then .ok out else .error "No matches found"

/-! ## Scan lemmas -/

/-- The matches of an error-free line list, with enumeration starting at
`k`: the closed form of `collectMatches` on `lines.map Except.ok`. -/
def matchesOfLines (m : MatchesFinder) : Nat → List String → List LineMatch
  | _, [] => []
  | k, line :: rest =>
    if m.is_match line then
      { line := line, line_number := k + 1 } :: matchesOfLines m (k + 1) rest
    else
      matchesOfLines m (k + 1) rest

lemma collectMatches_map_ok (m : MatchesFinder) :
    ∀ (k : Nat) (lines : List String),
      collectMatches m k (lines.map Except.ok) = .ok (matchesOfLines m k lines)
  | _, [] => rfl
  | k, line :: rest => by
    simp only [List.map_cons, collectMatches, matchesOfLines,
      collectMatches_map_ok m (k + 1) rest]
    split <;> rfl

lemma matchesOfLines_number_gt (m : MatchesFinder) :
    ∀ (k : Nat) (lines : List String),
      ∀ lm ∈ matchesOfLines m k lines, k < lm.line_number
  | k, [], lm, h => by simp [matchesOfLines] at h
  | k, line :: rest, lm, h => by
    by_cases hm : m.is_match line
    · simp only [matchesOfLines, hm, if_true, List.mem_cons] at h
      rcases h with h | h
      · simp [h]
      · exact Nat.lt_of_succ_lt (matchesOfLines_number_gt m (k + 1) rest lm h)
    · simp only [matchesOfLines, hm, if_false] at h
      exact Nat.lt_of_succ_lt (matchesOfLines_number_gt m (k + 1) rest lm h)

lemma mem_matchesOfLines_number (m : MatchesFinder) :
    ∀ (k i : Nat) (lines : List String) (hi : i < lines.length),
      ((k + i + 1) ∈ (matchesOfLines m k lines).map LineMatch.line_number ↔
        m.is_match lines[i] = true)
  | k, i, [], hi => by simp at hi
  | k, 0, line :: rest, hi => by
    by_cases hm : m.is_match line
    · simp [matchesOfLines, hm]
    · simp only [matchesOfLines, hm, if_false, List.getElem_cons_zero,
        Nat.add_zero]
      constructor
      · intro h
        rcases List.mem_map.mp h with ⟨lm, hlm, hn⟩
        have := matchesOfLines_number_gt m (k + 1) rest lm hlm
        omega
      · intro h
        exact absurd h (by simp [hm])
  | k, i + 1, line :: rest, hi => by
    have hrest : i < rest.length := by
      simpa using Nat.lt_of_succ_lt_succ hi
    have ih := mem_matchesOfLines_number m (k + 1) i rest hrest
    by_cases hm : m.is_match line
    · simp only [matchesOfLines, hm, if_true, List.map_cons, List.mem_cons,
        List.getElem_cons_succ]
      have hne : ¬ (k + (i + 1) + 1 = k + 1) := by omega
      have harith : k + 1 + i + 1 = k + (i + 1) + 1 := by omega
      rw [harith] at ih
      simp [hne, ih]
    · simp only [matchesOfLines, hm, if_false, List.getElem_cons_succ]
      have harith : k + 1 + i + 1 = k + (i + 1) + 1 := by omega
      rw [harith] at ih
      exact ih

/-- C1: the Line Scanner classifies a line as a match exactly when
`pattern.is_match(line) XOR invert` holds, and over one error-free source
the `invert=false` and `invert=true` match sets are complementary and
exhaustive: each scanned line number lands in exactly one of the two. -/
theorem C1_invert_xor_partition (p : RegexCap) (lines : List String) (i : Nat)
    (hi : i < lines.length) :
    (∀ (inv : Bool) (line : String),
      MatchesFinder.is_match ⟨p, inv⟩ line = Bool.xor (p.is_match line) inv) ∧
    ∃ ms₀ ms₁ : List LineMatch,
      MatchesFinder.find_matches_from_reader ⟨p, false⟩ (lines.map Except.ok) =
        .ok ms₀ ∧
      MatchesFinder.find_matches_from_reader ⟨p, true⟩ (lines.map Except.ok) =
        .ok ms₁ ∧
      ((i + 1) ∈ ms₀.map LineMatch.line_number ↔ p.is_match lines[i] = true) ∧
      ((i + 1) ∈ ms₁.map LineMatch.line_number ↔
        (i + 1) ∉ ms₀.map LineMatch.line_number) := by
  refine ⟨fun inv line => rfl, matchesOfLines ⟨p, false⟩ 0 lines,
    matchesOfLines ⟨p, true⟩ 0 lines,
    collectMatches_map_ok ⟨p, false⟩ 0 lines,
    collectMatches_map_ok ⟨p, true⟩ 0 lines, ?_, ?_⟩
  · have h := mem_matchesOfLines_number ⟨p, false⟩ 0 i lines hi
    simpa [MatchesFinder.is_match] using h
  · have h0 := mem_matchesOfLines_number ⟨p, false⟩ 0 i lines hi
    have h1 := mem_matchesOfLines_number ⟨p, true⟩ 0 i lines hi
    simp only [Nat.zero_add] at h0 h1
    rw [h0, h1]
    simp [MatchesFinder.is_match]

/-- Witness for C1 at `pattern ~ (== "foo")`, three scanned lines, `i = 2`. -/
theorem C1_invert_xor_partition_witness :
    (2 < (["foo", "bar", "foo"] : List String).length) ∧
    ((∀ (inv : Bool) (line : String),
      MatchesFinder.is_match ⟨⟨fun s => s == "foo", id⟩, inv⟩ line =
        Bool.xor ((fun s => s == "foo") line) inv) ∧
    ∃ ms₀ ms₁ : List LineMatch,
      MatchesFinder.find_matches_from_reader ⟨⟨fun s => s == "foo", id⟩, false⟩
          ((["foo", "bar", "foo"] : List String).map Except.ok) = .ok ms₀ ∧
      MatchesFinder.find_matches_from_reader ⟨⟨fun s => s == "foo", id⟩, true⟩
          ((["foo", "bar", "foo"] : List String).map Except.ok) = .ok ms₁ ∧
      ((3 : Nat) ∈ ms₀.map LineMatch.line_number ↔
        (("foo" : String) == "foo") = true) ∧
      ((3 : Nat) ∈ ms₁.map LineMatch.line_number ↔
        (3 : Nat) ∉ ms₀.map LineMatch.line_number)) :=
  ⟨by decide, C1_invert_xor_partition ⟨fun s => s == "foo", id⟩
    ["foo", "bar", "foo"] 2 (by decide)⟩

lemma collectMatches_spec (m : MatchesFinder) :
    ∀ (k : Nat) (rs : List (Except String String)) (ms : List LineMatch),
      collectMatches m k rs = .ok ms →
      (ms.map LineMatch.line_number).Pairwise (· < ·) ∧
      ∀ lm ∈ ms, k < lm.line_number ∧ lm.line_number ≤ k + rs.length ∧
        rs[lm.line_number - 1 - k]? = some (.ok lm.line)
  | k, [], ms, h => by
    simp only [collectMatches, Except.ok.injEq] at h
    subst h
    simp
  | k, .error e :: rest, ms, h => by
    simp [collectMatches] at h
  | k, .ok line :: rest, ms, h => by
    by_cases hm : m.is_match line
    · simp only [collectMatches, hm, if_true] at h
      rcases hrec : collectMatches m (k + 1) rest with e | ms₂
      · rw [hrec] at h; exact absurd h (by simp)
      · rw [hrec] at h
        simp only [Except.ok.injEq] at h
        subst h
        obtain ⟨hsorted, hbounds⟩ := collectMatches_spec m (k + 1) rest ms₂ hrec
        constructor
        · refine List.pairwise_cons.mpr ⟨?_, hsorted⟩
          intro n hn
          rcases List.mem_map.mp hn with ⟨lm, hlm, hh⟩
          have h1 := (hbounds lm hlm).1
          show k + 1 < n
          omega
        · intro lm hlm
          rcases List.mem_cons.mp hlm with hh | hh
          · subst hh
            exact ⟨Nat.lt_succ_self k, by show k + 1 ≤ k + (rest.length + 1); omega,
              by simp⟩
          · obtain ⟨h1, h2, h3⟩ := hbounds lm hh
            refine ⟨by omega, by simp; omega, ?_⟩
            have hidx : lm.line_number - 1 - k = (lm.line_number - 1 - (k + 1)) + 1 := by
              omega
            rw [hidx, List.getElem?_cons_succ]
            exact h3
    · simp only [collectMatches, hm, if_false] at h
      obtain ⟨hsorted, hbounds⟩ := collectMatches_spec m (k + 1) rest ms h
      refine ⟨hsorted, ?_⟩
      intro lm hlm
      obtain ⟨h1, h2, h3⟩ := hbounds lm hlm
      refine ⟨by omega, by simp; omega, ?_⟩
      have hidx : lm.line_number - 1 - k = (lm.line_number - 1 - (k + 1)) + 1 := by
        omega
      rw [hidx, List.getElem?_cons_succ]
      exact h3

/-- C6: whenever a scan succeeds, the attached line numbers are 1-based and
strictly increasing, and each match carries the text of exactly the input
line at its (1-based) position — the counter advances once per line read,
matching or not, so matches appear in input line order. -/
theorem C6_line_numbers_strictly_increasing (m : MatchesFinder)
    (reader : List (Except String String)) (ms : List LineMatch)
    (h : m.find_matches_from_reader reader = .ok ms) :
    (ms.map LineMatch.line_number).Pairwise (· < ·) ∧
    ∀ lm ∈ ms, 1 ≤ lm.line_number ∧ lm.line_number ≤ reader.length ∧
      reader[lm.line_number - 1]? = some (.ok lm.line) := by
  obtain ⟨hsorted, hbounds⟩ := collectMatches_spec m 0 reader ms h
  refine ⟨hsorted, ?_⟩
  intro lm hlm
  obtain ⟨h1, h2, h3⟩ := hbounds lm hlm
  exact ⟨h1, by omega, by simpa using h3⟩

/-- Witness for C6: scanning `foo / bar / foo` for `foo` yields numbers 1, 3. -/
theorem C6_line_numbers_strictly_increasing_witness :
    (([⟨"foo", 1⟩, ⟨"foo", 3⟩] : List LineMatch).map
      LineMatch.line_number).Pairwise (· < ·) ∧
    ∀ lm ∈ ([⟨"foo", 1⟩, ⟨"foo", 3⟩] : List LineMatch), 1 ≤ lm.line_number ∧
      lm.line_number ≤
        ([.ok "foo", .ok "bar", .ok "foo"] :
          List (Except String String)).length ∧
      ([.ok "foo", .ok "bar", .ok "foo"] :
        List (Except String String))[lm.line_number - 1]? =
        some (.ok lm.line) :=
  C6_line_numbers_strictly_increasing ⟨⟨fun s => s == "foo", id⟩, false⟩
    [.ok "foo", .ok "bar", .ok "foo"] [⟨"foo", 1⟩, ⟨"foo", 3⟩] (by rfl)

lemma collectMatches_first_error (m : MatchesFinder) (pre : List String) :
    ∀ (k : Nat) (e : String) (post : List (Except String String)),
      collectMatches m k (pre.map Except.ok ++ .error e :: post) = .error e := by
  induction pre with
  | nil => intro k e post; rfl
  | cons line rest ih =>
    intro k e post
    simp only [List.map_cons, List.cons_append, collectMatches]
    simp only [List.append_eq, ih]
    split <;> rfl

/-- C10: a scan is all-or-nothing — a read error at any line makes the
whole scan return exactly that error, discarding every match collected
before it, and the `grep_files` loop then renders nothing for that source:
stdout and the match flag are untouched, only a stderr diagnostic is added. -/
theorem C10_scan_all_or_nothing (m : MatchesFinder) (r : FileMatchesReporter)
    (st : BatchState) (p : String) (pre : List String) (e : String)
    (post : List (Except String String)) :
    m.find_matches_from_file ⟨p, .ok (pre.map Except.ok ++ .error e :: post)⟩ =
      .error e ∧
    grepFilesStep m r st
        (.ok ⟨p, .ok (pre.map Except.ok ++ .error e :: post)⟩) =
      { st with errs := st.errs ++ ["Error reading file " ++ p ++ ": " ++ e] } := by
  have hscan : m.find_matches_from_file
      ⟨p, .ok (pre.map Except.ok ++ .error e :: post)⟩ = .error e := by
    simp only [MatchesFinder.find_matches_from_file,
      MatchesFinder.find_matches_from_reader, collectMatches_first_error]
  refine ⟨hscan, ?_⟩
  simp only [grepFilesStep, hscan]

/-! ## Resolver theorems -/

/-- C2 counterexample: an existing path that is neither a regular file nor
a directory (e.g. a fifo) produces no entry at all — it is silently
omitted, not turned into a per-entry error. -/
theorem C2_counterexample_other_path_omitted :
    findFiles true [FsTree.other "fifo"] = [] ∧
    findFiles false [FsTree.other "fifo"] = [] := by
  exact ⟨rfl, rfl⟩

/-- C2 (amended): a failing metadata lookup yields a per-entry error
carrying the underlying failure, without aborting the resolution; but an
existing path that is neither a regular file nor a directory yields no
entry at all. -/
theorem C2_metadata_failure_per_entry_error (recursive : Bool)
    (p e q : String) (before after : List FsTree) :
    findFilesAtPath recursive (.broken p e) = [.error e] ∧
    findFilesAtPath recursive (.other q) = [] ∧
    findFiles recursive (before ++ .broken p e :: after) =
      findFiles recursive before ++ .error e :: findFiles recursive after := by
  refine ⟨rfl, rfl, ?_⟩
  simp [findFiles, findFilesAtPath]

lemma findFilesInDir_files_entryErr (e : String)
    (post : List FsTree) :
    ∀ pre : List String,
      findFilesInDir true (pre.map .file ++ .entryErr e :: post) = .error e := by
  intro pre
  induction pre with
  | nil => simp [findFilesInDir]
  | cons f rest ih =>
    simp only [List.map_cons, List.cons_append, findFilesInDir]
    simp only [List.append_eq, ih]

/-- C3 counterexample: with `recursive=true`, an iterator error in the
middle of one directory's entries suppresses every file of that directory
(`d/a` was already collected, `d/b` was still to come); the run yields a
single error entry for the whole expansion. -/
theorem C3_counterexample_dir_error_suppresses_entries :
    findFiles true
        [FsTree.dir "d" [.file "d/a", .entryErr "boom", .file "d/b"],
         FsTree.file "z"] =
      [.error "boom", .ok "z"] := by
  simp [findFiles, findFilesAtPath, findFilesInDir]

/-- C3 (amended): resolution of the input list never aborts early — the
result is the concatenation of the per-entry results, so an error on one
input entry cannot suppress its siblings; but inside one recursive
directory expansion, an I/O error on any directory entry aborts that whole
expansion, which then contributes a single error entry in place of all of
its files. -/
theorem C3_input_entries_independent (recursive : Bool) (xs ys : List FsTree)
    (pre : List String) (e : String) (post : List FsTree) :
    findFiles recursive (xs ++ ys) =
      findFiles recursive xs ++ findFiles recursive ys ∧
    findFilesInDir true (pre.map .file ++ .entryErr e :: post) = .error e := by
  constructor
  · simp [findFiles]
  · exact findFilesInDir_files_entryErr e post pre

lemma cleanTrees_cons {t : FsTree} {ts : List FsTree}
    (h : cleanTrees (t :: ts) = true) :
    cleanTree t = true ∧ cleanTrees ts = true := by
  simpa [cleanTrees, Bool.and_eq_true] using h

lemma findFilesInDir_clean :
    ∀ cs : List FsTree, cleanTrees cs = true →
      findFilesInDir true cs = .ok (dfsFilesList cs)
  | [], _ => by simp [findFilesInDir, dfsFilesList]
  | .file p :: rest, h => by
    have ih := findFilesInDir_clean rest (cleanTrees_cons h).2
    simp [findFilesInDir, dfsFilesList, dfsFiles, ih]
  | .dir p children :: rest, h => by
    have hc : cleanTrees children = true := by
      simpa [cleanTree] using (cleanTrees_cons h).1
    have ih₁ := findFilesInDir_clean children hc
    have ih₂ := findFilesInDir_clean rest (cleanTrees_cons h).2
    simp [findFilesInDir, dfsFilesList, dfsFiles, ih₁, ih₂]
  | .other p :: rest, h => by
    have ih := findFilesInDir_clean rest (cleanTrees_cons h).2
    simp [findFilesInDir, dfsFilesList, dfsFiles, ih]
  | .broken p e :: rest, h => by
    have ih := findFilesInDir_clean rest (cleanTrees_cons h).2
    simp [findFilesInDir, dfsFilesList, dfsFiles, ih]
  | .entryErr e :: rest, h => by
    simp [cleanTrees, cleanTree] at h
  | .dirErr p e :: rest, h => by
    simp [cleanTrees, cleanTree] at h

/-- C4: an input path denoting a directory yields, when `recursive` is
false, the single "is a directory, use -r" error entry and no files; and,
when `recursive` is true and every directory beneath it enumerates without
error, exactly the regular files beneath it as success entries, in
depth-first directory-read order. -/
theorem C4_directory_resolution (p : String) (children : List FsTree)
    (h : cleanTrees children = true) :
    findFilesAtPath false (.dir p children) =
      [.error (p ++ " is a directory, use -r to search recursively")] ∧
    findFilesAtPath true (.dir p children) =
      (dfsFilesList children).map Except.ok := by
  refine ⟨rfl, ?_⟩
  simp [findFilesAtPath, findFilesInDir_clean children h]

/-- Witness for C4 at the spec's example tree `a/{1.txt, b/2.txt}`. -/
theorem C4_directory_resolution_witness :
    cleanTrees [.file "a/1.txt", .dir "a/b" [.file "a/b/2.txt"]] = true ∧
    (findFilesAtPath false
        (.dir "a" [.file "a/1.txt", .dir "a/b" [.file "a/b/2.txt"]]) =
      [.error "a is a directory, use -r to search recursively"] ∧
    findFilesAtPath true
        (.dir "a" [.file "a/1.txt", .dir "a/b" [.file "a/b/2.txt"]]) =
      (dfsFilesList [.file "a/1.txt", .dir "a/b" [.file "a/b/2.txt"]]).map
        Except.ok) := by
  refine ⟨by simp [cleanTrees, cleanTree], ?_⟩
  exact C4_directory_resolution "a"
    [.file "a/1.txt", .dir "a/b" [.file "a/b/2.txt"]]
    (by simp [cleanTrees, cleanTree])

/-! ## Reporter and orchestrator theorems -/

/-- The rendered block of each producing source of a batch run, in order:
one `output_file_matches` block per resolved entry that opens, scans
without error and has at least one match. -/
def producingBlocks (m : MatchesFinder) (r : FileMatchesReporter)
    (entries : List (Except String SrcFile)) : List String :=
  entries.filterMap fun entry =>
    match entry with
    | .error _ => none
    | .ok f =>
      match m.find_matches_from_file f with
      | .error _ => none
      | .ok result =>
        if !result.is_empty then some (r.output_file_matches result) else none

/-- Concatenate blocks with the separator before every block. -/
def sepEach (sep : String) : List String → String
  | [] => ""
  | b :: rest => sep ++ b ++ sepEach sep rest

/-- Concatenate blocks with the separator between adjacent blocks only:
no separator before the first block, exactly one between each pair. -/
def sepJoin (sep : String) : List String → String
  | [] => ""
  | b :: rest => b ++ sepEach sep rest

lemma grepFiles_foldl_spec (m : MatchesFinder) (r : FileMatchesReporter)
    (entries : List (Except String SrcFile)) :
    ∀ st : BatchState,
      (entries.foldl (grepFilesStep m r) st).out =
        st.out ++
          (if st.has_matches then
            sepEach r.output_file_separator (producingBlocks m r entries)
          else sepJoin r.output_file_separator (producingBlocks m r entries)) ∧
      (entries.foldl (grepFilesStep m r) st).has_matches =
        (st.has_matches || !(producingBlocks m r entries).isEmpty) := by
  induction entries with
  | nil =>
    intro st
    cases h : st.has_matches <;>
      simp [producingBlocks, sepEach, sepJoin, h, String.append_empty]
  | cons entry rest ih =>
    intro st
    match hentry : entry with
    | .error e =>
      have hstep : grepFilesStep m r st (.error e) =
          { st with errs := st.errs ++ ["Error accessing file: " ++ e] } := rfl
      simp only [List.foldl_cons, hstep, producingBlocks, List.filterMap_cons]
      exact ih _
    | .ok f =>
      rcases hscan : m.find_matches_from_file f with e | result
      · have hstep : grepFilesStep m r st (.ok f) =
            { st with errs := st.errs ++
              ["Error reading file " ++ f.path ++ ": " ++ e] } := by
          simp [grepFilesStep, hscan]
        simp only [List.foldl_cons, hstep, producingBlocks, List.filterMap_cons,
          hscan]
        exact ih _
      · by_cases hne : !result.is_empty
        · have hempty : result.is_empty = false := by
            simpa using hne
          have hstep : grepFilesStep m r st (.ok f) =
              { out := st.out ++
                  (if st.has_matches then r.output_file_separator else "") ++
                  r.output_file_matches result,
                errs := st.errs, has_matches := true } := by
            simp [grepFilesStep, hscan, hempty]
          have hblocks : producingBlocks m r (.ok f :: rest) =
              r.output_file_matches result :: producingBlocks m r rest := by
            simp [producingBlocks, List.filterMap_cons, hscan, hempty]
          obtain ⟨ihout, ihhas⟩ := ih (grepFilesStep m r st (.ok f))
          rw [hstep] at ihout ihhas
          constructor
          · rw [List.foldl_cons, hstep, ihout, hblocks]
            cases h : st.has_matches <;>
              simp [h, sepEach, sepJoin, String.append_assoc,
                String.empty_append, String.append_empty]
          · rw [List.foldl_cons, hstep, ihhas, hblocks]
            simp
        · have hempty : result.is_empty = true := by
            simpa using hne
          have hstep : grepFilesStep m r st (.ok f) = st := by
            simp [grepFilesStep, hscan, hempty]
          have hblocks : producingBlocks m r (.ok f :: rest) =
              producingBlocks m r rest := by
            simp [producingBlocks, List.filterMap_cons, hscan, hempty]
          rw [List.foldl_cons, hstep, hblocks]
          exact ih st

/-- C5: the stdout of a multi-file batch run is exactly the producing
sources' blocks joined by the separator — no separator before the first
producing source, exactly one between each adjacent pair — and the
separator is one blank line in matched-lines mode and nothing in
count-only mode. -/
theorem C5_separator_between_producing_sources (m : MatchesFinder)
    (r : FileMatchesReporter) (entries : List (Except String SrcFile)) :
    (grepFiles m r entries).out =
      sepJoin r.output_file_separator (producingBlocks m r entries) ∧
    r.output_file_separator = (if r.count then "" else "\n") := by
  constructor
  · have h := (grepFiles_foldl_spec m r entries ⟨"", [], false⟩).1
    simpa [grepFiles, String.empty_append] using h
  · cases h : r.count <;>
      simp [FileMatchesReporter.output_file_separator,
        FileMatchesReporter.output_newline, h]

/-- The rendering of one match line in matched-lines mode. -/
def renderedMatchLine (r : FileMatchesReporter) (lm : LineMatch) : String :=
  r.output_line_number lm.line_number ++ r.output_line_text lm.line

/-- C7: for one scan result, count-only mode renders
`<path>:<result.len()>` while matched-lines mode renders one line per
element of the same `matches` sequence — the rendered count equals the
number of rendered matched lines (`result.len()` is the length of that
sequence); the stdin variant renders the bare count of the same sequence. -/
theorem C7_count_equals_matched_lines_length (r : FileMatchesReporter)
    (result : FileMatches) :
    FileMatchesReporter.output_file_matches { r with count := true } result =
      FileMatchesReporter.output_file_path { r with count := true }
          result.file_path ++ ":" ++ toString result.len ++ "\n" ∧
    FileMatchesReporter.output_file_matches { r with count := false } result =
      FileMatchesReporter.output_file_path { r with count := false }
          result.file_path ++ "\n" ++
        String.join (result.«matches».map
          (renderedMatchLine { r with count := false })) ∧
    result.len =
      (result.«matches».map (renderedMatchLine { r with count := false })).length ∧
    FileMatchesReporter.output_stdin_matches { r with count := true } result =
      toString result.len ++ "\n" := by
  refine ⟨?_, ?_, ?_, ?_⟩
  · simp [FileMatchesReporter.output_file_matches,
      FileMatchesReporter.output_file_match_count,
      FileMatchesReporter.output_matches_count,
      FileMatchesReporter.output_newline, String.append_assoc]
  · rfl
  · simp [FileMatches.len]
  · simp [FileMatchesReporter.output_stdin_matches,
      FileMatchesReporter.output_matches_count,
      FileMatchesReporter.output_newline]

/-- C8: in interactive-terminal mode every line read is echoed — the
stdout is the concatenation of one non-empty echo per input line, matching
or not — and the whole invocation succeeds regardless of the pattern and
of whether anything matched. -/
theorem C8_interactive_echoes_everything (m : MatchesFinder)
    (r : FileMatchesReporter) (raw : List String)
    (piped : List (Except String String)) :
    grep m r (.stdin true raw piped) =
      .ok (String.join (raw.map fun buffer =>
        r.output_line_text (rustTrimEnd buffer))) ∧
    ∀ buffer : String, r.output_line_text (rustTrimEnd buffer) ≠ "" := by
  constructor
  · simp [grep, grepStdin, grepInteractiveStdin]
  · intro buffer h
    have hdata := congrArg String.data h
    simp only [FileMatchesReporter.output_line_text,
      FileMatchesReporter.output_newline, String.data_append] at hdata
    simpa using congrArg List.length hdata

lemma rustTrimEnd_idempotent (s : String) :
    rustTrimEnd (rustTrimEnd s) = rustTrimEnd s := by
  simp [rustTrimEnd, List.dropWhile_idempotent]

lemma rustTrim_rustTrimEnd (s : String) :
    rustTrim (rustTrimEnd s) = rustTrim s := by
  simp [rustTrim, rustTrimEnd_idempotent]

/-- C9: with color off, every rendered line text — a batch matched line
and an interactive echo alike — is the input text with both ends trimmed,
so the echo of a line carrying leading or trailing whitespace is not a
byte-for-byte copy of it. -/
theorem C9_rendered_line_text_is_trimmed (r : FileMatchesReporter)
    (line buffer : String) (hc : r.color = false)
    (hws : rustTrim buffer ≠ buffer) :
    r.output_line_text line = rustTrim line ++ "\n" ∧
    r.output_line_text (rustTrimEnd buffer) = rustTrim buffer ++ "\n" ∧
    r.output_line_text (rustTrimEnd buffer) ≠ buffer ++ "\n" := by
  have h1 : r.output_line_text line = rustTrim line ++ "\n" := by
    simp [FileMatchesReporter.output_line_text,
      FileMatchesReporter.output_newline, hc]
  have h2 : r.output_line_text (rustTrimEnd buffer) = rustTrim buffer ++ "\n" := by
    simp [FileMatchesReporter.output_line_text,
      FileMatchesReporter.output_newline, hc, rustTrim_rustTrimEnd]
  refine ⟨h1, h2, ?_⟩
  rw [h2]
  intro h
  apply hws
  have hdata := congrArg String.data h
  simp only [String.data_append] at hdata
  have := List.append_cancel_right hdata
  exact String.ext this

/-- Witness for C9 at a color-off reporter and the whitespace-bearing
inputs `" a "` (batch) and `" b"` (interactive buffer). -/
theorem C9_rendered_line_text_is_trimmed_witness :
    (⟨⟨fun _ => false, id⟩, false, false, id, id⟩ :
      FileMatchesReporter).color = false ∧
    rustTrim " b" ≠ " b" ∧
    (FileMatchesReporter.output_line_text
        ⟨⟨fun _ => false, id⟩, false, false, id, id⟩ " a " =
      rustTrim " a " ++ "\n" ∧
    FileMatchesReporter.output_line_text
        ⟨⟨fun _ => false, id⟩, false, false, id, id⟩ (rustTrimEnd " b") =
      rustTrim " b" ++ "\n" ∧
    FileMatchesReporter.output_line_text
        ⟨⟨fun _ => false, id⟩, false, false, id, id⟩ (rustTrimEnd " b") ≠
      " b" ++ "\n") :=
  ⟨rfl, by decide,
    C9_rendered_line_text_is_trimmed ⟨⟨fun _ => false, id⟩, false, false, id, id⟩
      " a " " b" rfl (by decide)⟩

end Kf
